import Mathlib

set_option autoImplicit false

/-!
Verification of the FCM notification dispatch script
(`send_fcm_notification.js`): a scan-detect-send-mark loop over a keyed
store of payment sessions.

The embedding models JavaScript values (`JsVal`), the session store as an
association list of session ids to values, and the effectful parts
(`messaging.send`, `ref.child(..).update`, the snapshot fetch) through an
environment of per-session outcomes, so that the control flow of
`sendNotifications` becomes a pure fold over the fetched snapshot.
-/

namespace SendFcm

/-- JavaScript-like runtime values, as they appear in a Firebase realtime
database snapshot: `undefined`, `null`, booleans, numbers, strings and
objects (finite lists of named fields). -/
inductive JsVal where
  | undefined
  | null
  | bool (b : Bool)
  | num (n : Int)
  | str (s : String)
  | obj (fields : List (String × JsVal))

/-- JavaScript truthiness: `undefined`, `null`, `false`, `0` and `""` are
falsy; every object is truthy. Models the test `session.cardPaymentDetails`
on line 24 of the script. -/
def truthy : JsVal → Bool
  | .undefined => false
  | .null => false
  | .bool b => b
  | .num n => n != 0
  | .str s => s != ""
  | .obj _ => true

/-- Strict equality to the boolean literal `true`: models
`session.notified !== true` (negated) on line 24 of the script. -/
def isTrueLit : JsVal → Bool
  | .bool true => true
  | _ => false

/-- JavaScript property access `v.k`: the first field named `k` of an
object, `undefined` when the field is absent or the value is not an
object. -/
def getProp (v : JsVal) (k : String) : JsVal :=
  match v with
  | .obj fields => ((fields.find? (fun p => p.1 == k)).map Prod.snd).getD .undefined
  | _ => .undefined

/-- Whether the value is an object carrying a field named `k` (mere key
presence, regardless of the field's value). -/
def hasProp (v : JsVal) (k : String) : Bool :=
  match v with
  | .obj fields => fields.any (fun p => p.1 == k)
  | _ => false

/-- JavaScript string interpolation of a value, as in the template literal
on line 29 of the script: `undefined` prints as `"undefined"`. -/
def jsToString : JsVal → String
  | .undefined => "undefined"
  | .null => "null"
  | .bool b => if b then "true" else "false"
  | .num n => toString n
  | .str s => s
  | .obj _ => "[object Object]"

/-- The filter on line 24 of the script:
`session.cardPaymentDetails && session.notified !== true`. -/
def isCandidate (session : JsVal) : Bool :=
  truthy (getProp session "cardPaymentDetails") &&
    !isTrueLit (getProp session "notified")

/-- The notification payload built on lines 26-32 of the script. -/
structure Message where
  title : String
  body : String
  topic : String
deriving DecidableEq

/-- The payload for one session: fixed title, body interpolating
`session.cardPaymentDetails.cardHolderName`, fixed topic `"admin"`. -/
def buildMessage (session : JsVal) : Message :=
  { title := "New Card Added"
    body := "Cardholder: " ++
      jsToString (getProp (getProp session "cardPaymentDetails") "cardHolderName")
    topic := "admin" }

/-- The session store: a snapshot is a keyed collection of session
records, modelled as an association list from session id to value. -/
abbrev Store := List (String × JsVal)

/-- First entry of the store whose key equals `sid` (JS property lookup on
the snapshot object). -/
def storeGet : Store → String → Option JsVal
  | [], _ => none
  | (k, v) :: rest, sid => if k == sid then some v else storeGet rest sid

/-- Set the field `notified` of an object's field list to `true`,
preserving every other field; append it when absent. -/
def setNotifiedFields : List (String × JsVal) → List (String × JsVal)
  | [] => [("notified", JsVal.bool true)]
  | (k, v) :: rest =>
    if k == "notified" then (k, JsVal.bool true) :: rest
    else (k, v) :: setNotifiedFields rest

/-- Effect of `ref.child(sessionId).update({ notified: true })` on one
session value: merge `notified: true` into the object; a non-object value
at that path is replaced by the object `{notified: true}`. -/
def setNotifiedTrue : JsVal → JsVal
  | .obj fields => .obj (setNotifiedFields fields)
  | _ => .obj [("notified", JsVal.bool true)]

/-- Effect of `ref.child(sessionId).update({ notified: true })` on the
store: update the session named `sid` in place; create it when absent
(Firebase `update` creates missing paths). -/
def updateChild (st : Store) (sid : String) : Store :=
  if st.any (fun p => p.1 == sid) then
    st.map (fun p => if p.1 == sid then (p.1, setNotifiedTrue p.2) else p)
  else st ++ [(sid, JsVal.obj [("notified", JsVal.bool true)])]

/-- Outcomes of the two external operations for each session id in one
run: `none` means the awaited promise fulfils, `some e` that it rejects
with error `e`. `sendResult` models `messaging.send`, `markResult` models
`ref.child(sessionId).update({ notified: true })`. -/
structure Env where
  sendResult : String → Option String
  markResult : String → Option String

/-- Console output of the script: line 37 logs a success message carrying
the cardholder name; line 39 logs `"Error sending notification:"` with the
caught error, for any failure inside the try block. -/
inductive LogEntry where
  | sent (cardHolderName : String)
  | errorLog (err : String)
deriving DecidableEq

/-- State accumulated by one invocation of `sendNotifications`: the store
as mutated so far, the calls issued to `messaging.send` (tagged by the
session that triggered them), the calls issued to
`ref.child(..).update` (by session id), and the console log. -/
structure RunResult where
  store : Store
  sends : List (String × Message)
  updates : List String
  logs : List LogEntry

/-- Body of the loop on lines 22-42 of the script, for one snapshot entry:
skip non-candidates; for a candidate, attempt the send; on send success
attempt the mark; any rejection is caught and logged, never rethrown. -/
def processSession (env : Env) (acc : RunResult) (entry : String × JsVal) :
    RunResult :=
  let sessionId := entry.1
  let session := entry.2
  if truthy (getProp session "cardPaymentDetails") &&
      !isTrueLit (getProp session "notified") then
    let cardHolderName :=
      jsToString (getProp (getProp session "cardPaymentDetails") "cardHolderName")
    let message := buildMessage session
    match env.sendResult sessionId with
    | some err =>
      { acc with
        sends := acc.sends ++ [(sessionId, message)]
        logs := acc.logs ++ [.errorLog err] }
    | none =>
      match env.markResult sessionId with
      | some err =>
        { acc with
          sends := acc.sends ++ [(sessionId, message)]
          updates := acc.updates ++ [sessionId]
          logs := acc.logs ++ [.errorLog err] }
      | none =>
        { store := updateChild acc.store sessionId
          sends := acc.sends ++ [(sessionId, message)]
          updates := acc.updates ++ [sessionId]
          logs := acc.logs ++ [.sent cardHolderName] }
  else acc

/-- The `for (const sessionId in data)` loop: fold `processSession` over
the entries of the fetched snapshot. -/
def runLoop (env : Env) (acc : RunResult) : List (String × JsVal) → RunResult
  | [] => acc
  | entry :: rest => runLoop env (processSession env acc entry) rest

/-- One invocation of the loop on a successfully fetched snapshot `data`:
the store starts equal to the snapshot, and the loop iterates over the
snapshot (not over the evolving store). -/
def run (env : Env) (data : Store) : RunResult :=
  runLoop env { store := data, sends := [], updates := [], logs := [] } data

/-- `sendNotifications`: fetch the snapshot (line 19); a rejected fetch
propagates out of the async function before the loop runs; otherwise run
the dispatch loop. -/
def sendNotifications (env : Env) (fetch : Except String Store) :
    Except String RunResult :=
  match fetch with
  | .error e => .error e
  | .ok data => .ok (run env data)

/-- Log entries contributed by one snapshot entry: nothing for a
non-candidate; for a candidate, the same `errorLog` entry whether the send
or the mark rejected, and a `sent` entry on full success. -/
def entryLogs (env : Env) (sid : String) (session : JsVal) : List LogEntry :=
  if isCandidate session then
    match env.sendResult sid with
    | some err => [.errorLog err]
    | none =>
      match env.markResult sid with
      | some err => [.errorLog err]
      | none =>
        [.sent (jsToString (getProp (getProp session "cardPaymentDetails") "cardHolderName"))]
  else []

theorem processSession_sends (env : Env) (acc : RunResult) (entry : String × JsVal) :
    (processSession env acc entry).sends =
      acc.sends ++ (if isCandidate entry.2 then [(entry.1, buildMessage entry.2)] else []) := by
  simp only [processSession, isCandidate]
  by_cases h : (truthy (getProp entry.2 "cardPaymentDetails") &&
      !isTrueLit (getProp entry.2 "notified")) = true
  · cases hs : env.sendResult entry.1
    · cases hm : env.markResult entry.1 <;> simp [h]
    · simp [h]
  · rw [Bool.not_eq_true] at h
    simp [h]

theorem processSession_updates (env : Env) (acc : RunResult) (entry : String × JsVal) :
    (processSession env acc entry).updates =
      acc.updates ++
        (if isCandidate entry.2 && (env.sendResult entry.1).isNone then [entry.1] else []) := by
  simp only [processSession, isCandidate]
  by_cases h : (truthy (getProp entry.2 "cardPaymentDetails") &&
      !isTrueLit (getProp entry.2 "notified")) = true
  · cases hs : env.sendResult entry.1
    · cases hm : env.markResult entry.1 <;> simp [h, hs]
    · simp [h, hs]
  · rw [Bool.not_eq_true] at h
    simp [h]

theorem processSession_logs (env : Env) (acc : RunResult) (entry : String × JsVal) :
    (processSession env acc entry).logs = acc.logs ++ entryLogs env entry.1 entry.2 := by
  simp only [processSession, entryLogs, isCandidate]
  by_cases h : (truthy (getProp entry.2 "cardPaymentDetails") &&
      !isTrueLit (getProp entry.2 "notified")) = true
  · cases hs : env.sendResult entry.1
    · cases hm : env.markResult entry.1 <;> simp [h, hs, hm]
    · simp [h, hs]
  · rw [Bool.not_eq_true] at h
    simp [h]

theorem processSession_store (env : Env) (acc : RunResult) (entry : String × JsVal) :
    (processSession env acc entry).store =
      if isCandidate entry.2 && (env.sendResult entry.1).isNone &&
          (env.markResult entry.1).isNone then
        updateChild acc.store entry.1
      else acc.store := by
  simp only [processSession, isCandidate]
  by_cases h : (truthy (getProp entry.2 "cardPaymentDetails") &&
      !isTrueLit (getProp entry.2 "notified")) = true
  · cases hs : env.sendResult entry.1
    · cases hm : env.markResult entry.1 <;> simp [h, hs, hm]
    · simp [h, hs]
  · rw [Bool.not_eq_true] at h
    simp [h]

theorem any_eq_isSome_storeGet (st : Store) (sid : String) :
    st.any (fun p => p.1 == sid) = (storeGet st sid).isSome := by
  induction st with
  | nil => rfl
  | cons p rest ih =>
    obtain ⟨k, v⟩ := p
    by_cases hk : (k == sid) = true
    · simp [storeGet, hk]
    · rw [Bool.not_eq_true] at hk
      simp [storeGet, hk, ih]

theorem storeGet_append (st st' : Store) (sid : String) :
    storeGet (st ++ st') sid =
      match storeGet st sid with
      | some v => some v
      | none => storeGet st' sid := by
  induction st with
  | nil => rfl
  | cons p rest ih =>
    obtain ⟨k, v⟩ := p
    by_cases hk : (k == sid) = true
    · simp [storeGet, hk]
    · rw [Bool.not_eq_true] at hk
      simp [storeGet, hk, ih]

theorem storeGet_map_setNotified (st : Store) (sid : String) :
    storeGet (st.map (fun p => if p.1 == sid then (p.1, setNotifiedTrue p.2) else p)) sid =
      (storeGet st sid).map setNotifiedTrue := by
  induction st with
  | nil => rfl
  | cons p rest ih =>
    obtain ⟨k, v⟩ := p
    simp only [List.map_cons]
    by_cases hk : (k == sid) = true
    · rw [if_pos hk]
      simp only [storeGet]
      rw [if_pos hk, if_pos hk]
      rfl
    · rw [if_neg hk]
      simp only [storeGet]
      rw [if_neg hk, if_neg hk]
      exact ih

theorem storeGet_map_setNotified_ne (st : Store) (sid j : String) (h : j ≠ sid) :
    storeGet (st.map (fun p => if p.1 == sid then (p.1, setNotifiedTrue p.2) else p)) j =
      storeGet st j := by
  induction st with
  | nil => rfl
  | cons p rest ih =>
    obtain ⟨k, v⟩ := p
    simp only [List.map_cons]
    by_cases hk : (k == sid) = true
    · have hks : k = sid := eq_of_beq hk
      have hkj : ¬((k == j) = true) := by
        rw [Bool.not_eq_true]
        apply beq_eq_false_iff_ne.mpr
        intro hkj'
        exact h (hkj'.symm.trans hks)
      rw [if_pos hk]
      simp only [storeGet]
      rw [if_neg hkj, if_neg hkj]
      exact ih
    · rw [if_neg hk]
      simp only [storeGet]
      by_cases hkj : (k == j) = true
      · rw [if_pos hkj, if_pos hkj]
      · rw [if_neg hkj, if_neg hkj]
        exact ih

theorem storeGet_updateChild_self (st : Store) (sid : String) :
    storeGet (updateChild st sid) sid =
      match storeGet st sid with
      | some v => some (setNotifiedTrue v)
      | none => some (JsVal.obj [("notified", JsVal.bool true)]) := by
  by_cases h : st.any (fun p => p.1 == sid) = true
  · rw [updateChild, if_pos h, storeGet_map_setNotified]
    have h2 : (storeGet st sid).isSome := by rw [← any_eq_isSome_storeGet]; exact h
    obtain ⟨v, hv⟩ := Option.isSome_iff_exists.mp h2
    rw [hv]
    rfl
  · rw [updateChild, if_neg h]
    rw [Bool.not_eq_true] at h
    cases hsg : storeGet st sid with
    | none =>
      rw [storeGet_append, hsg]
      simp [storeGet]
    | some v =>
      exfalso
      have hany := any_eq_isSome_storeGet st sid
      rw [h, hsg] at hany
      exact Bool.false_ne_true hany

theorem storeGet_updateChild_ne (st : Store) (sid j : String) (h : j ≠ sid) :
    storeGet (updateChild st sid) j = storeGet st j := by
  rw [updateChild]
  by_cases ha : st.any (fun p => p.1 == sid) = true
  · rw [if_pos ha, storeGet_map_setNotified_ne st sid j h]
  · rw [if_neg ha, storeGet_append]
    cases hsg : storeGet st j with
    | some v => rfl
    | none =>
      have hsj : (sid == j) = false := beq_eq_false_iff_ne.mpr (Ne.symm h)
      simp [storeGet, hsj]

theorem updateChild_map_fst (st : Store) (sid : String)
    (h : st.any (fun p => p.1 == sid) = true) :
    (updateChild st sid).map Prod.fst = st.map Prod.fst := by
  rw [updateChild, if_pos h, List.map_map]
  apply List.map_congr_left
  intro p _
  simp only [Function.comp_apply]
  by_cases hp : (p.1 == sid) = true
  · rw [if_pos hp]
  · rw [if_neg hp]

theorem setNotifiedFields_idem (fs : List (String × JsVal)) :
    setNotifiedFields (setNotifiedFields fs) = setNotifiedFields fs := by
  induction fs with
  | nil => simp [setNotifiedFields]
  | cons p rest ih =>
    obtain ⟨k, v⟩ := p
    by_cases hk : (k == "notified") = true
    · simp [setNotifiedFields, hk]
    · rw [Bool.not_eq_true] at hk
      simp [setNotifiedFields, hk, ih]

theorem setNotifiedTrue_idem (v : JsVal) :
    setNotifiedTrue (setNotifiedTrue v) = setNotifiedTrue v := by
  cases v <;> simp [setNotifiedTrue, setNotifiedFields, setNotifiedFields_idem]

theorem find?_setNotifiedFields_ne (fs : List (String × JsVal)) (k : String)
    (h : (("notified" : String) == k) = false) :
    (setNotifiedFields fs).find? (fun p => p.1 == k) = fs.find? (fun p => p.1 == k) := by
  induction fs with
  | nil => simp [setNotifiedFields, h]
  | cons p rest ih =>
    obtain ⟨k', v'⟩ := p
    by_cases hk : (k' == "notified") = true
    · have hks : k' = "notified" := eq_of_beq hk
      subst hks
      simp [setNotifiedFields, h]
    · rw [Bool.not_eq_true] at hk
      by_cases hk2 : (k' == k) = true
      · simp [setNotifiedFields, hk, hk2]
      · rw [Bool.not_eq_true] at hk2
        simp [setNotifiedFields, hk, hk2, ih]

theorem getProp_setNotifiedTrue_notified (v : JsVal) :
    getProp (setNotifiedTrue v) "notified" = JsVal.bool true := by
  cases v with
  | obj fs =>
    simp only [setNotifiedTrue, getProp]
    induction fs with
    | nil => simp [setNotifiedFields]
    | cons p rest ih =>
      obtain ⟨k, v'⟩ := p
      by_cases hk : (k == "notified") = true
      · simp [setNotifiedFields, hk]
      · rw [Bool.not_eq_true] at hk
        simp only [setNotifiedFields, hk]
        simp only [Bool.false_eq_true, if_false]
        rw [List.find?_cons_of_neg _ (by simp [hk])]
        exact ih
  | undefined => simp [setNotifiedTrue, getProp]
  | null => simp [setNotifiedTrue, getProp]
  | bool b => simp [setNotifiedTrue, getProp]
  | num n => simp [setNotifiedTrue, getProp]
  | str s => simp [setNotifiedTrue, getProp]

theorem getProp_setNotifiedTrue_ne (v : JsVal) (k : String) (h : k ≠ "notified") :
    getProp (setNotifiedTrue v) k = getProp v k := by
  have hb : (("notified" : String) == k) = false := beq_eq_false_iff_ne.mpr (Ne.symm h)
  cases v with
  | obj fs => simp [setNotifiedTrue, getProp, find?_setNotifiedFields_ne fs k hb]
  | undefined => simp [setNotifiedTrue, getProp, hb]
  | null => simp [setNotifiedTrue, getProp, hb]
  | bool b => simp [setNotifiedTrue, getProp, hb]
  | num n => simp [setNotifiedTrue, getProp, hb]
  | str s => simp [setNotifiedTrue, getProp, hb]

theorem mem_of_storeGet {st : Store} {sid : String} {v : JsVal}
    (h : storeGet st sid = some v) : (sid, v) ∈ st := by
  induction st with
  | nil => exact absurd h (by simp [storeGet])
  | cons p rest ih =>
    obtain ⟨k, w⟩ := p
    by_cases hk : (k == sid) = true
    · have hks : k = sid := eq_of_beq hk
      rw [storeGet, if_pos hk] at h
      obtain rfl : w = v := Option.some.inj h
      subst hks
      exact List.mem_cons_self _ _
    · rw [storeGet, if_neg hk] at h
      exact List.mem_cons_of_mem _ (ih h)

theorem storeGet_isSome_of_mem {st : Store} {sid : String} {v : JsVal}
    (h : (sid, v) ∈ st) : (storeGet st sid).isSome := by
  induction st with
  | nil => exact absurd h (List.not_mem_nil _)
  | cons p rest ih =>
    obtain ⟨k, w⟩ := p
    rcases List.mem_cons.mp h with heq | hmem
    · obtain ⟨rfl, rfl⟩ := Prod.mk.injEq .. ▸ And.intro (congrArg Prod.fst heq) (congrArg Prod.snd heq)
      simp [storeGet]
    · by_cases hk : (k == sid) = true
      · simp [storeGet, hk]
      · rw [Bool.not_eq_true] at hk
        simp only [storeGet, hk, Bool.false_eq_true, if_false]
        exact ih hmem

theorem any_key_eq_map_fst (st : Store) (sid : String) :
    st.any (fun p => p.1 == sid) = (st.map Prod.fst).any (fun k => k == sid) := by
  induction st with
  | nil => rfl
  | cons p rest ih => simp only [List.any_cons, List.map_cons, ih]

theorem runLoop_sends (env : Env) (l : List (String × JsVal)) (acc : RunResult) :
    (runLoop env acc l).sends =
      acc.sends ++
        (l.filter (fun p => isCandidate p.2)).map (fun p => (p.1, buildMessage p.2)) := by
  induction l generalizing acc with
  | nil => simp [runLoop]
  | cons e rest ih =>
    simp only [runLoop]
    rw [ih, processSession_sends]
    by_cases h : isCandidate e.2 = true
    · rw [if_pos h]
      simp only [List.filter_cons]
      rw [if_pos h]
      simp
    · rw [if_neg h]
      simp only [List.filter_cons]
      rw [if_neg h]
      simp

theorem runLoop_updates (env : Env) (l : List (String × JsVal)) (acc : RunResult) :
    (runLoop env acc l).updates =
      acc.updates ++
        (l.filter (fun p => isCandidate p.2 && (env.sendResult p.1).isNone)).map Prod.fst := by
  induction l generalizing acc with
  | nil => simp [runLoop]
  | cons e rest ih =>
    simp only [runLoop]
    rw [ih, processSession_updates]
    by_cases h : (isCandidate e.2 && (env.sendResult e.1).isNone) = true
    · rw [if_pos h]
      simp only [List.filter_cons]
      rw [if_pos h]
      simp
    · rw [if_neg h]
      simp only [List.filter_cons]
      rw [if_neg h]
      simp

theorem runLoop_store_unchanged (env : Env) (sid : String) (l : List (String × JsVal)) :
    ∀ acc : RunResult,
    (∀ p ∈ l, p.1 = sid →
      (isCandidate p.2 && (env.sendResult sid).isNone && (env.markResult sid).isNone) = false) →
    storeGet (runLoop env acc l).store sid = storeGet acc.store sid := by
  induction l with
  | nil => intro acc _; rfl
  | cons e rest ih =>
    intro acc h
    simp only [runLoop]
    rw [ih _ (fun p hp => h p (List.mem_cons_of_mem _ hp))]
    rw [processSession_store]
    by_cases hc : (isCandidate e.2 && (env.sendResult e.1).isNone &&
        (env.markResult e.1).isNone) = true
    · rw [if_pos hc]
      by_cases hj : e.1 = sid
      · have hfalse := h e (List.mem_cons_self _ _) hj
        rw [hj] at hc
        rw [hc] at hfalse
        exact absurd hfalse (by simp)
      · exact storeGet_updateChild_ne acc.store e.1 sid (fun hss => hj hss.symm)
    · rw [if_neg hc]

theorem runLoop_store_map_fst (env : Env) (data : Store) (l : List (String × JsVal)) :
    ∀ acc : RunResult,
    (∀ p ∈ l, p ∈ data) →
    acc.store.map Prod.fst = data.map Prod.fst →
    (runLoop env acc l).store.map Prod.fst = data.map Prod.fst := by
  induction l with
  | nil => intro acc _ hk; exact hk
  | cons e rest ih =>
    intro acc hmem hk
    simp only [runLoop]
    apply ih _ (fun p hp => hmem p (List.mem_cons_of_mem _ hp))
    rw [processSession_store]
    by_cases hc : (isCandidate e.2 && (env.sendResult e.1).isNone &&
        (env.markResult e.1).isNone) = true
    · rw [if_pos hc]
      have hmem1 : (e.1, e.2) ∈ data := by rw [Prod.mk.eta]; exact hmem e (List.mem_cons_self _ _)
      have hsome : (storeGet data e.1).isSome := storeGet_isSome_of_mem hmem1
      have hany : acc.store.any (fun p => p.1 == e.1) = true := by
        rw [any_key_eq_map_fst, hk, ← any_key_eq_map_fst, any_eq_isSome_storeGet]
        exact hsome
      rw [updateChild_map_fst _ _ hany, hk]
    · rw [if_neg hc]
      exact hk

theorem runLoop_storeGet_cases (env : Env) (data : Store) (sid : String)
    (l : List (String × JsVal)) :
    ∀ acc : RunResult,
    (∀ p ∈ l, p ∈ data) →
    (storeGet acc.store sid = storeGet data sid ∨
      ∃ v, storeGet data sid = some v ∧ storeGet acc.store sid = some (setNotifiedTrue v)) →
    (storeGet (runLoop env acc l).store sid = storeGet data sid ∨
      ∃ v, storeGet data sid = some v ∧
        storeGet (runLoop env acc l).store sid = some (setNotifiedTrue v)) := by
  induction l with
  | nil => intro acc _ h; exact h
  | cons e rest ih =>
    intro acc hmem hinv
    simp only [runLoop]
    apply ih _ (fun p hp => hmem p (List.mem_cons_of_mem _ hp))
    rw [processSession_store]
    by_cases hc : (isCandidate e.2 && (env.sendResult e.1).isNone &&
        (env.markResult e.1).isNone) = true
    · rw [if_pos hc]
      by_cases hj : e.1 = sid
      · rw [hj]
        rw [storeGet_updateChild_self]
        have hsome : (storeGet data sid).isSome := by
          have hmem1 : (e.1, e.2) ∈ data := by
            rw [Prod.mk.eta]; exact hmem e (List.mem_cons_self _ _)
          rw [hj] at hmem1
          exact storeGet_isSome_of_mem hmem1
        obtain ⟨w, hw⟩ := Option.isSome_iff_exists.mp hsome
        rcases hinv with h1 | ⟨v, hv1, hv2⟩
        · rw [h1, hw]
          exact Or.inr ⟨w, rfl, rfl⟩
        · rw [hv2]
          refine Or.inr ⟨v, hv1, ?_⟩
          show some (setNotifiedTrue (setNotifiedTrue v)) = some (setNotifiedTrue v)
          rw [setNotifiedTrue_idem]
      · rw [storeGet_updateChild_ne acc.store e.1 sid (fun hss => hj hss.symm)]
        exact hinv
    · rw [if_neg hc]
      exact hinv

theorem storeGet_ite_updateChild_ne (c : Prop) [Decidable c] (st : Store) (sid j : String)
    (h : j ≠ sid) : storeGet (if c then updateChild st sid else st) j = storeGet st j := by
  by_cases hc : c
  · rw [if_pos hc, storeGet_updateChild_ne st sid j h]
  · rw [if_neg hc]

theorem filter_ite_singleton_ne (c : Prop) [Decidable c] (x j : String)
    (h : (x == j) = false) :
    (if c then [x] else []).filter (fun u => u == j) = [] := by
  by_cases hc : c
  · rw [if_pos hc]
    simp only [List.filter_cons]
    rw [if_neg (by rw [h]; exact Bool.false_ne_true)]
    rfl
  · rw [if_neg hc]
    rfl

theorem runLoop_agree (env env' : Env) (j : String)
    (hs : env.sendResult j = env'.sendResult j)
    (hm : env.markResult j = env'.markResult j) (l : List (String × JsVal)) :
    ∀ acc acc' : RunResult,
    storeGet acc.store j = storeGet acc'.store j →
    acc.updates.filter (fun u => u == j) = acc'.updates.filter (fun u => u == j) →
    storeGet (runLoop env acc l).store j = storeGet (runLoop env' acc' l).store j ∧
    (runLoop env acc l).updates.filter (fun u => u == j) =
      (runLoop env' acc' l).updates.filter (fun u => u == j) := by
  induction l with
  | nil => intro acc acc' h1 h2; exact ⟨h1, h2⟩
  | cons e rest ih =>
    intro acc acc' h1 h2
    simp only [runLoop]
    apply ih
    · rw [processSession_store, processSession_store]
      by_cases hj : e.1 = j
      · rw [hj, hs, hm]
        by_cases hc : (isCandidate e.2 && (env'.sendResult j).isNone &&
            (env'.markResult j).isNone) = true
        · rw [if_pos hc, if_pos hc, storeGet_updateChild_self, storeGet_updateChild_self, h1]
        · rw [if_neg hc, if_neg hc]
          exact h1
      · have hne : j ≠ e.1 := fun hh => hj hh.symm
        rw [storeGet_ite_updateChild_ne _ _ _ _ hne, storeGet_ite_updateChild_ne _ _ _ _ hne]
        exact h1
    · rw [processSession_updates, processSession_updates, List.filter_append,
        List.filter_append, h2]
      congr 1
      by_cases hj : e.1 = j
      · rw [hj, hs]
      · have hb : (e.1 == j) = false := beq_eq_false_iff_ne.mpr hj
        rw [filter_ite_singleton_ne _ _ _ hb, filter_ite_singleton_ne _ _ _ hb]

theorem processSession_not_candidate (env : Env) (acc : RunResult) (entry : String × JsVal)
    (h : isCandidate entry.2 = false) : processSession env acc entry = acc := by
  rw [isCandidate] at h
  simp only [processSession]
  rw [if_neg (by rw [h]; exact Bool.false_ne_true)]

/-- A session with card payment details for "Alice" and `notified: false`
(example scenario 1 of the specification). -/
def aliceSession : JsVal :=
  .obj [("cardPaymentDetails", .obj [("cardHolderName", .str "Alice")]),
        ("notified", .bool false)]

/-- A session with card payment details for "Bob" and `notified: false`. -/
def bobSession : JsVal :=
  .obj [("cardPaymentDetails", .obj [("cardHolderName", .str "Bob")]),
        ("notified", .bool false)]

/-- Environment in which every send and every mark fulfils. -/
def envAllOk : Env := { sendResult := fun _ => none, markResult := fun _ => none }

/-- Environment in which every send rejects with the error "boom". -/
def envSendFail : Env := { sendResult := fun _ => some "boom", markResult := fun _ => none }

/-- Environment in which every send fulfils and every mark rejects with
the error "boom". -/
def envMarkFail : Env := { sendResult := fun _ => none, markResult := fun _ => some "boom" }

/-- Environment in which only the send for session "s1" rejects; every
other operation fulfils. -/
def envFailS1 : Env :=
  { sendResult := fun sid => if sid == "s1" then some "boom" else none
    markResult := fun _ => none }

/-- C1: counterexample. In the snapshot `{s1: {cardPaymentDetails: 0, notified: false}}`
the session's `cardPaymentDetails` field is present and its `notified` field is not
strictly `true`, yet the filter on line 24 rejects it and the run attempts no send:
candidacy is decided by the truthiness of `cardPaymentDetails`, not by key presence, so
"present if and only if candidate" fails. -/
theorem C1_presence_counterexample :
    hasProp (JsVal.obj [("cardPaymentDetails", JsVal.num 0), ("notified", JsVal.bool false)])
        "cardPaymentDetails" = true ∧
    isTrueLit (getProp (JsVal.obj [("cardPaymentDetails", JsVal.num 0),
        ("notified", JsVal.bool false)]) "notified") = false ∧
    isCandidate (JsVal.obj [("cardPaymentDetails", JsVal.num 0),
        ("notified", JsVal.bool false)]) = false ∧
    (run envAllOk [("s1", JsVal.obj [("cardPaymentDetails", JsVal.num 0),
        ("notified", JsVal.bool false)])]).sends = [] := by
  decide

/-- C1 (amended): for every fetched snapshot, a session is selected as a candidate for
dispatch if and only if its `cardPaymentDetails` field is truthy (present with a
non-falsy value) and its `notified` field is not strictly `true`: the send attempts of a
run are exactly the candidate entries of the snapshot, and a session with
`notified: true` is never a candidate, whatever its other fields hold. -/
theorem C1_filter_truthiness (env : Env) (data : Store) :
    (run env data).sends =
      (data.filter (fun p => isCandidate p.2)).map (fun p => (p.1, buildMessage p.2)) ∧
    (∀ s : JsVal, isTrueLit (getProp s "notified") = true → isCandidate s = false) := by
  constructor
  · rw [run, runLoop_sends]
    rfl
  · intro s hs
    rw [isCandidate, hs]
    simp

/-- C1 (amended) applied at a concrete snapshot: a session with `notified: true` and
full card details yields no send attempt. -/
theorem C1_filter_truthiness_witness :
    (run envAllOk [("s1", JsVal.obj [("cardPaymentDetails",
        JsVal.obj [("cardHolderName", JsVal.str "Bob")]),
        ("notified", JsVal.bool true)])]).sends = [] ∧
    isCandidate (JsVal.obj [("cardPaymentDetails",
        JsVal.obj [("cardHolderName", JsVal.str "Bob")]),
        ("notified", JsVal.bool true)]) = false := by
  refine ⟨?_, ?_⟩
  · rw [(C1_filter_truthiness envAllOk [("s1", JsVal.obj [("cardPaymentDetails",
        JsVal.obj [("cardHolderName", JsVal.str "Bob")]),
        ("notified", JsVal.bool true)])]).1]
    rfl
  · exact (C1_filter_truthiness envAllOk []).2 _ (by decide)

/-- C2: the store update setting `notified: true` is issued only for sessions whose send
fulfilled; when the send for `sid` rejects, no update for `sid` is issued and the
session's record is left unchanged by the run. -/
theorem C2_no_premature_marking (env : Env) (data : Store) (sid : String) (e : String)
    (hfail : env.sendResult sid = some e) :
    (∀ u ∈ (run env data).updates, env.sendResult u = none) ∧
    sid ∉ (run env data).updates ∧
    storeGet (run env data).store sid = storeGet data sid := by
  have hall : ∀ u ∈ (run env data).updates, env.sendResult u = none := by
    intro u hu
    rw [run, runLoop_updates] at hu
    have hu2 : u ∈ (data.filter
        (fun p => isCandidate p.2 && (env.sendResult p.1).isNone)).map Prod.fst := by
      rcases List.mem_append.mp hu with h | h
      · exact absurd h (List.not_mem_nil u)
      · exact h
    obtain ⟨p, hp, rfl⟩ := List.mem_map.mp hu2
    have hcond := (List.mem_filter.mp hp).2
    have h2 : (env.sendResult p.1).isNone = true := by
      simp only [Bool.and_eq_true] at hcond
      exact hcond.2
    exact Option.isNone_iff_eq_none.mp h2
  refine ⟨hall, ?_, ?_⟩
  · intro hmem
    have hc := hall sid hmem
    rw [hfail] at hc
    exact Option.noConfusion hc
  · rw [run]
    apply runLoop_store_unchanged
    intro p _ hp
    rw [hfail]
    simp

/-- C2 applied at a concrete snapshot: a failing send for "s1" leaves the record of
"s1" untouched and issues no update. -/
theorem C2_no_premature_marking_witness :
    envSendFail.sendResult "s1" = some "boom" ∧
    "s1" ∉ (run envSendFail [("s1", aliceSession)]).updates ∧
    storeGet (run envSendFail [("s1", aliceSession)]).store "s1" = some aliceSession := by
  refine ⟨rfl, ?_, ?_⟩
  · exact (C2_no_premature_marking envSendFail [("s1", aliceSession)] "s1" "boom" rfl).2.1
  · rw [(C2_no_premature_marking envSendFail [("s1", aliceSession)] "s1" "boom" rfl).2.2]
    rfl

/-- C3: when the send for a candidate fulfils but the mark rejects, the session's record
is unchanged, its `notified` field is still not `true`, and a next run over the resulting
(otherwise unchanged) store attempts a send for the same session again — the documented
duplicate-delivery behaviour. -/
theorem C3_mark_failure_resends (env : Env) (data : Store) (sid : String) (s : JsVal)
    (e : String) (hdata : storeGet data sid = some s) (hcand : isCandidate s = true)
    (hsend : env.sendResult sid = none) (hmark : env.markResult sid = some e) :
    storeGet (run env data).store sid = some s ∧
    isTrueLit (getProp s "notified") = false ∧
    ∀ env2 : Env, (sid, buildMessage s) ∈ (run env2 ((run env data).store)).sends := by
  have hunch : storeGet (run env data).store sid = storeGet data sid := by
    rw [run]
    apply runLoop_store_unchanged
    intro p _ hp
    rw [hmark]
    simp
  refine ⟨hunch.trans hdata, ?_, ?_⟩
  · have h := hcand
    rw [isCandidate, Bool.and_eq_true] at h
    cases hb : isTrueLit (getProp s "notified")
    · rfl
    · rw [hb] at h
      exact absurd h.2 (by simp)
  · intro env2
    have hmem : (sid, s) ∈ (run env data).store := mem_of_storeGet (hunch.trans hdata)
    rw [run, runLoop_sends]
    exact List.mem_append.mpr (Or.inr (List.mem_map.mpr
      ⟨(sid, s), List.mem_filter.mpr ⟨hmem, hcand⟩, rfl⟩))

/-- C3 applied at a concrete snapshot: with a failing mark for "s1", the record survives
unchanged and a second, fully healthy run sends for "s1" again. -/
theorem C3_mark_failure_resends_witness :
    storeGet (run envMarkFail [("s1", aliceSession)]).store "s1" = some aliceSession ∧
    ("s1", buildMessage aliceSession) ∈
      (run envAllOk ((run envMarkFail [("s1", aliceSession)]).store)).sends := by
  have h := C3_mark_failure_resends envMarkFail [("s1", aliceSession)] "s1" aliceSession
    "boom" rfl (by decide) rfl rfl
  exact ⟨h.1, h.2.2 envAllOk⟩

/-- C5: a rejected snapshot fetch aborts the whole run with that failure: the function
propagates the fetch error to its caller and never produces a run result, so no send is
attempted and no store update is issued. -/
theorem C5_fetch_failure_aborts (env : Env) (e : String) :
    sendNotifications env (Except.error e) = Except.error e ∧
    ∀ r : RunResult, sendNotifications env (Except.error e) ≠ Except.ok r := by
  refine ⟨rfl, fun r h => ?_⟩
  exact Except.noConfusion h

/-- C5 applied at a concrete fetch failure. -/
theorem C5_fetch_failure_aborts_witness :
    sendNotifications envAllOk (Except.error "down") = Except.error "down" ∧
    sendNotifications envAllOk (Except.error "down") ≠ Except.ok (run envAllOk []) := by
  exact ⟨(C5_fetch_failure_aborts envAllOk "down").1,
    (C5_fetch_failure_aborts envAllOk "down").2 (run envAllOk [])⟩

/-- C4: failures are isolated per candidate — if two environments differ only in the
send/mark outcomes for session `sid`, then for every other session `j` the run's effect
on `j` is identical (same final record, same issued updates for `j`), the send attempts
of the two runs are identical, and the run always completes normally with a result
(a per-candidate failure never aborts it). -/
theorem C4_isolation (data : Store) (sid : String) (env env' : Env)
    (hs : ∀ j, j ≠ sid → env.sendResult j = env'.sendResult j)
    (hm : ∀ j, j ≠ sid → env.markResult j = env'.markResult j) :
    (∀ j, j ≠ sid →
      storeGet (run env data).store j = storeGet (run env' data).store j ∧
      (run env data).updates.filter (fun u => u == j) =
        (run env' data).updates.filter (fun u => u == j)) ∧
    (run env data).sends = (run env' data).sends ∧
    sendNotifications env (Except.ok data) = Except.ok (run env data) := by
  refine ⟨?_, ?_, rfl⟩
  · intro j hj
    rw [run, run]
    exact runLoop_agree env env' j (hs j hj) (hm j hj) data _ _ rfl rfl
  · rw [run, run, runLoop_sends, runLoop_sends]

/-- C4 applied at a concrete snapshot: a send failure for "s1" leaves the processing of
"s2" bit-for-bit identical to the all-healthy run. -/
theorem C4_isolation_witness :
    storeGet (run envFailS1 [("s1", aliceSession), ("s2", bobSession)]).store "s2" =
      storeGet (run envAllOk [("s1", aliceSession), ("s2", bobSession)]).store "s2" ∧
    (run envFailS1 [("s1", aliceSession), ("s2", bobSession)]).sends =
      (run envAllOk [("s1", aliceSession), ("s2", bobSession)]).sends := by
  have hsArg : ∀ j, j ≠ "s1" → envFailS1.sendResult j = envAllOk.sendResult j := by
    intro j hj
    simp [envFailS1, envAllOk, hj]
  have h := C4_isolation [("s1", aliceSession), ("s2", bobSession)] "s1" envFailS1 envAllOk
    hsArg (fun j hj => rfl)
  exact ⟨(h.1 "s2" (by decide)).1, h.2.1⟩

/-- C6: counterexample. On the snapshot `{s1: Alice-session}`, a run whose send rejects
with "boom" and a run whose send fulfils but whose mark rejects with "boom" produce
literally identical logs — the single generic entry `errorLog "boom"`, which carries no
session id and nothing separating a mark failure from a send failure — so no
`MarkFailed` outcome distinguishable from `SendFailed` is logged. -/
theorem C6_log_counterexample :
    (run envSendFail [("s1", aliceSession)]).logs =
      (run envMarkFail [("s1", aliceSession)]).logs ∧
    (run envMarkFail [("s1", aliceSession)]).logs = [LogEntry.errorLog "boom"] ∧
    (run envSendFail [("s1", aliceSession)]).logs = [LogEntry.errorLog "boom"] := by
  decide

/-- C6 (amended): when the send for a candidate fulfils and the store update rejects, the
run logs the single catch-all `errorLog` entry carrying only the thrown error — exactly
the entry a send failure with the same error produces — so the logs distinguish neither
outcome and include no session id. -/
theorem C6_uniform_error_log (env env' : Env) (acc acc' : RunResult) (sid : String)
    (session : JsVal) (e : String) (hc : isCandidate session = true)
    (h1 : env.sendResult sid = some e) (h2 : env'.sendResult sid = none)
    (h3 : env'.markResult sid = some e) :
    (processSession env acc (sid, session)).logs = acc.logs ++ [LogEntry.errorLog e] ∧
    (processSession env' acc' (sid, session)).logs = acc'.logs ++ [LogEntry.errorLog e] := by
  constructor
  · rw [processSession_logs]
    dsimp only
    rw [entryLogs, if_pos hc, h1]
  · rw [processSession_logs]
    dsimp only
    rw [entryLogs, if_pos hc, h2, h3]

/-- C6 (amended) applied at a concrete candidate: both failure modes log exactly
`errorLog "boom"`. -/
theorem C6_uniform_error_log_witness :
    (processSession envSendFail
        { store := [], sends := [], updates := [], logs := [] } ("s1", aliceSession)).logs =
      [LogEntry.errorLog "boom"] ∧
    (processSession envMarkFail
        { store := [], sends := [], updates := [], logs := [] } ("s1", aliceSession)).logs =
      [LogEntry.errorLog "boom"] := by
  have h := C6_uniform_error_log envSendFail envMarkFail
    { store := [], sends := [], updates := [], logs := [] }
    { store := [], sends := [], updates := [], logs := [] }
    "s1" aliceSession "boom" (by decide) rfl rfl rfl
  exact ⟨h.1, h.2⟩

/-- C7: every payload handed to the send operation during a run has exactly the fixed
title "New Card Added", the fixed broadcast topic "admin", and a body interpolating the
originating session's `cardPaymentDetails.cardHolderName`; any session with the same
interpolated cardholder name yields the identical payload, so no other session field
influences it. -/
theorem C7_payload_shape (env : Env) (data : Store) (p : String × Message)
    (hp : p ∈ (run env data).sends) :
    ∃ session : JsVal, (p.1, session) ∈ data ∧ isCandidate session = true ∧
      p.2.title = "New Card Added" ∧ p.2.topic = "admin" ∧
      p.2.body = "Cardholder: " ++
        jsToString (getProp (getProp session "cardPaymentDetails") "cardHolderName") ∧
      ∀ t : JsVal, getProp (getProp t "cardPaymentDetails") "cardHolderName" =
          getProp (getProp session "cardPaymentDetails") "cardHolderName" →
        buildMessage t = p.2 := by
  rw [run, runLoop_sends] at hp
  have hp2 : p ∈ (data.filter (fun q => isCandidate q.2)).map
      (fun q => (q.1, buildMessage q.2)) := by
    rcases List.mem_append.mp hp with h | h
    · exact absurd h (List.not_mem_nil p)
    · exact h
  obtain ⟨q, hq, rfl⟩ := List.mem_map.mp hp2
  have hqd := List.mem_filter.mp hq
  refine ⟨q.2, hqd.1, hqd.2, rfl, rfl, rfl, ?_⟩
  intro t ht
  show buildMessage t = buildMessage q.2
  rw [buildMessage, buildMessage, ht]

/-- C7 applied at a concrete run: the "Alice" payload is as specified, with the body
containing "Alice". -/
theorem C7_payload_shape_witness :
    ∃ session : JsVal, (("s1", session) ∈ ([("s1", aliceSession)] : Store)) ∧
      isCandidate session = true ∧
      (buildMessage aliceSession).title = "New Card Added" ∧
      (buildMessage aliceSession).topic = "admin" ∧
      (buildMessage aliceSession).body = "Cardholder: " ++
        jsToString (getProp (getProp session "cardPaymentDetails") "cardHolderName") ∧
      ∀ t : JsVal, getProp (getProp t "cardPaymentDetails") "cardHolderName" =
          getProp (getProp session "cardPaymentDetails") "cardHolderName" →
        buildMessage t = buildMessage aliceSession :=
  C7_payload_shape envAllOk [("s1", aliceSession)] ("s1", buildMessage aliceSession)
    (by decide)

/-- C8: the `notified` flag is monotone under everything the run does: the run never
creates or deletes sessions (the store's key sequence is unchanged), every session's
final record is either its snapshot record untouched or exactly that record with
`notified` set to `true`; that write sets only the `notified` field, preserves every
other field, and never reverts a flag that is already `true`. -/
theorem C8_notified_monotone (env : Env) (data : Store) (sid : String) :
    (run env data).store.map Prod.fst = data.map Prod.fst ∧
    (storeGet (run env data).store sid = storeGet data sid ∨
      ∃ v, storeGet data sid = some v ∧
        storeGet (run env data).store sid = some (setNotifiedTrue v)) ∧
    (∀ v : JsVal, getProp (setNotifiedTrue v) "notified" = JsVal.bool true) ∧
    (∀ (v : JsVal) (k : String), k ≠ "notified" →
      getProp (setNotifiedTrue v) k = getProp v k) ∧
    (∀ v w : JsVal, storeGet data sid = some v →
      storeGet (run env data).store sid = some w →
      isTrueLit (getProp v "notified") = true → isTrueLit (getProp w "notified") = true) := by
  have hcases : storeGet (run env data).store sid = storeGet data sid ∨
      ∃ v, storeGet data sid = some v ∧
        storeGet (run env data).store sid = some (setNotifiedTrue v) := by
    rw [run]
    exact runLoop_storeGet_cases env data sid data _ (fun p hp => hp) (Or.inl rfl)
  refine ⟨?_, hcases, getProp_setNotifiedTrue_notified, getProp_setNotifiedTrue_ne, ?_⟩
  · rw [run]
    exact runLoop_store_map_fst env data data _ (fun p hp => hp) rfl
  · intro v w hv hw htrue
    rcases hcases with h1 | ⟨v', hv1, hv2⟩
    · rw [h1, hv] at hw
      obtain rfl := Option.some.inj hw
      exact htrue
    · rw [hv1] at hv
      obtain rfl := Option.some.inj hv
      rw [hv2] at hw
      obtain rfl := (Option.some.inj hw).symm
      rw [getProp_setNotifiedTrue_notified]
      rfl

/-- C8 applied at a concrete run: the key sequence survives, the write turns `notified`
to `true` and leaves `cardPaymentDetails` alone. -/
theorem C8_notified_monotone_witness :
    (run envAllOk [("s1", aliceSession)]).store.map Prod.fst = ["s1"] ∧
    getProp (setNotifiedTrue aliceSession) "notified" = JsVal.bool true ∧
    getProp (setNotifiedTrue aliceSession) "cardPaymentDetails" =
      getProp aliceSession "cardPaymentDetails" := by
  have h := C8_notified_monotone envAllOk [("s1", aliceSession)] "s1"
  exact ⟨h.1, h.2.2.1 aliceSession,
    h.2.2.2.1 aliceSession "cardPaymentDetails" (by decide)⟩

/-- C9: a session whose `cardPaymentDetails` field holds a falsy value (`null`, `false`,
`0` or `""`) is excluded from the candidate set and the loop does nothing at all for such
an entry, because candidacy is decided by the truthiness of `cardPaymentDetails`, not by
mere key presence. -/
theorem C9_falsy_details_excluded (s v : JsVal)
    (hp : getProp s "cardPaymentDetails" = v)
    (hv : v = JsVal.null ∨ v = JsVal.bool false ∨ v = JsVal.num 0 ∨ v = JsVal.str "") :
    isCandidate s = false ∧
    ∀ (env : Env) (acc : RunResult) (sid : String), processSession env acc (sid, s) = acc := by
  have ht : truthy v = false := by
    rcases hv with rfl | rfl | rfl | rfl <;> decide
  have hc : isCandidate s = false := by
    rw [isCandidate, hp, ht]
    rfl
  exact ⟨hc, fun env acc sid => processSession_not_candidate env acc (sid, s) hc⟩

/-- C9 applied at a concrete session: `cardPaymentDetails: ""` (present, falsy) is not
a candidate. -/
theorem C9_falsy_details_excluded_witness :
    isCandidate (JsVal.obj [("cardPaymentDetails", JsVal.str "")]) = false :=
  (C9_falsy_details_excluded (JsVal.obj [("cardPaymentDetails", JsVal.str "")])
    (JsVal.str "") rfl (Or.inr (Or.inr (Or.inr rfl)))).1

/-- C10: a candidate whose truthy `cardPaymentDetails` carries no `cardHolderName` is
still dispatched — the loop attempts the send for it, without error — and the payload
body is the literal string "Cardholder: undefined". -/
theorem C10_missing_name_sends_undefined (env : Env) (acc : RunResult) (sid : String)
    (session cpd : JsVal) (hcpd : getProp session "cardPaymentDetails" = cpd)
    (htruthy : truthy cpd = true) (hname : getProp cpd "cardHolderName" = JsVal.undefined)
    (hnotified : isTrueLit (getProp session "notified") = false) :
    isCandidate session = true ∧
    (buildMessage session).body = "Cardholder: undefined" ∧
    (processSession env acc (sid, session)).sends =
      acc.sends ++ [(sid, buildMessage session)] := by
  have hc : isCandidate session = true := by
    rw [isCandidate, hcpd, htruthy, hnotified]
    rfl
  refine ⟨hc, ?_, ?_⟩
  · rw [buildMessage]
    dsimp only
    rw [hcpd, hname]
    rfl
  · rw [processSession_sends]
    dsimp only
    rw [if_pos hc]

/-- C10 applied at a concrete session whose card details carry no name. -/
theorem C10_missing_name_sends_undefined_witness :
    isCandidate (JsVal.obj [("cardPaymentDetails", JsVal.obj [])]) = true ∧
    (buildMessage (JsVal.obj [("cardPaymentDetails", JsVal.obj [])])).body =
      "Cardholder: undefined" := by
  have h := C10_missing_name_sends_undefined envAllOk
    { store := [], sends := [], updates := [], logs := [] } "s1"
    (JsVal.obj [("cardPaymentDetails", JsVal.obj [])]) (JsVal.obj [])
    rfl rfl rfl rfl
  exact ⟨h.1, h.2.1⟩

end SendFcm
